import Mathlib

/-!
# MITM Detection System Simulation — verification of the specified core

Shallow embedding of the repository's components that the specification
describes, together with proofs of the specified properties.

The repository ships the administrative dashboard (TypeScript/React) and its
README; the simulated network core (client, proxy, server scripts and the
orchestrator's API layer) is referenced by the dashboard but its scripts are
not part of the present tree, so those components are modelled from the
specification text, as flagged on each definition.  Numeric wire fields
(sequence, timestamp) are modelled over `Nat`; timing thresholds over `Nat`
seconds; dashboard numeric inputs over `ℚ`.
-/

/-! ## Wire codec (modelled from the spec) -/

/-- Modelled from the spec: the Message exchanged between source and
destination (§3).  The client/server scripts carrying this type are not under
`src/`.  `sequence` and `timestamp` are modelled as natural numbers,
`payload` as text. -/
structure Message where
  sequence : Nat
  timestamp : Nat
  payload : String
deriving DecidableEq, Repr

/-- Modelled from the spec: the explicit error value returned by `decode` on
invalid input (§4.1); carries the raw input for the forensic `malformed`
alert path. -/
structure MalformedError where
  raw : String
deriving DecidableEq, Repr

/-- Decimal digit to its character. -/
def digitChar (d : Nat) : Char :=
  if d = 0 then '0' else if d = 1 then '1' else if d = 2 then '2'
  else if d = 3 then '3' else if d = 4 then '4' else if d = 5 then '5'
  else if d = 6 then '6' else if d = 7 then '7' else if d = 8 then '8'
  else '9'

/-- Character to decimal digit, `none` on a non-digit. -/
def digitVal? (c : Char) : Option Nat :=
  if c = '0' then some 0 else if c = '1' then some 1 else if c = '2' then some 2
  else if c = '3' then some 3 else if c = '4' then some 4 else if c = '5' then some 5
  else if c = '6' then some 6 else if c = '7' then some 7 else if c = '8' then some 8
  else if c = '9' then some 9 else none

/-- Little-endian decimal digits of `n`, with `f` as structural fuel
(`n ≤ f` suffices for a complete expansion). -/
def natDigitsAux : Nat → Nat → List Nat
  | 0, _ => []
  | _ + 1, 0 => []
  | f + 1, n + 1 => ((n + 1) % 10) :: natDigitsAux f ((n + 1) / 10)

/-- Big-endian decimal character rendering of a natural number. -/
def natChars (n : Nat) : List Char :=
  if n = 0 then ['0'] else ((natDigitsAux n n).map digitChar).reverse

/-- All-digits parse of a character list, `none` if any character is not a
decimal digit. -/
def digitsOf? : List Char → Option (List Nat)
  | [] => some []
  | c :: cs =>
    match digitVal? c, digitsOf? cs with
    | some d, some ds => some (d :: ds)
    | _, _ => none

/-- Value of a big-endian digit list. -/
def digitsVal (ds : List Nat) : Nat := ds.foldl (fun a d => 10 * a + d) 0

/-- Value of a little-endian digit list (proof-side companion of
`digitsVal`). -/
def ofLE : List Nat → Nat
  | [] => 0
  | d :: ds => d + 10 * ofLE ds

/-- Numeric parse of a character list: every character a digit and at least
one digit present; otherwise `none` (the non-numeric-field rejection of
§4.1). -/
def charsToNat? (cs : List Char) : Option Nat :=
  match digitsOf? cs with
  | some [] => none
  | some ds => some (digitsVal ds)
  | none => none

/-- Split a character list on a separator character; always returns at least
one (possibly empty) group. -/
def splitOnChar (sep : Char) : List Char → List (List Char)
  | [] => [[]]
  | c :: rest =>
    match splitOnChar sep rest with
    | [] => [[]]
    | grp :: grps => if c = sep then [] :: grp :: grps else (c :: grp) :: grps

/-- Label of the sequence field of the wire layout (`SEQ=1 | TS=... | DATA=...`
in the README's traffic diagram; separators modelled as the bare `|`). -/
def seqLabel : List Char := ['S', 'E', 'Q', '=']

/-- Label of the timestamp field of the wire layout. -/
def tsLabel : List Char := ['T', 'S', '=']

/-- Label of the payload field of the wire layout. -/
def dataLabel : List Char := ['D', 'A', 'T', 'A', '=']

/-- Strip an expected label from the front of a field, `none` when the label
is absent (the missing-field rejection of §4.1). -/
def dropLabel? : List Char → List Char → Option (List Char)
  | [], cs => some cs
  | _ :: _, [] => none
  | l :: ls, c :: cs => if c = l then dropLabel? ls cs else none

/-- Modelled from the spec: `encode(Message) -> bytes` of the Wire Codec
(§4.1, §6) — a deterministic delimiter-based textual layout carrying the
three labeled fields in fixed order.  The client script owning this encoder
is not under `src/`. -/
def encode (m : Message) : String :=
  String.mk (seqLabel ++ natChars m.sequence ++
    '|' :: (tsLabel ++ natChars m.timestamp ++
      '|' :: (dataLabel ++ m.payload.data)))

/-- Modelled from the spec: `decode(bytes) -> Message | MalformedError` of the
Wire Codec (§4.1) — rejects input missing any of the three labeled fields or
with a non-numeric sequence/timestamp.  The server script owning this decoder
is not under `src/`. -/
def decode (s : String) : Except MalformedError Message :=
  match splitOnChar '|' s.data with
  | [f1, f2, f3] =>
    match dropLabel? seqLabel f1, dropLabel? tsLabel f2, dropLabel? dataLabel f3 with
    | some sd, some td, some pd =>
      match charsToNat? sd, charsToNat? td with
      | some sq, some ts => Except.ok ⟨sq, ts, String.mk pd⟩
      | _, _ => Except.error ⟨s⟩
    | _, _, _ => Except.error ⟨s⟩
  | _ => Except.error ⟨s⟩

/-- A string has all three labeled fields of the wire layout. -/
def hasAllFields (s : String) : Bool :=
  match splitOnChar '|' s.data with
  | [f1, f2, f3] =>
    (dropLabel? seqLabel f1).isSome && (dropLabel? tsLabel f2).isSome &&
      (dropLabel? dataLabel f3).isSome
  | _ => false

/-- A string's sequence and timestamp fields both parse as numbers. -/
def numericFields (s : String) : Bool :=
  match splitOnChar '|' s.data with
  | [f1, f2, _] =>
    (match dropLabel? seqLabel f1 with
      | some sd => (charsToNat? sd).isSome
      | none => false) &&
    (match dropLabel? tsLabel f2 with
      | some td => (charsToNat? td).isSome
      | none => false)
  | _ => false

/-! ## Detection Engine (modelled from the spec) -/

/-- Modelled from the spec: the Alert record emitted by the Detection Engine
(§3), one kind per classification of §4.4.  The server script owning this
type is not under `src/`. -/
inductive Alert
  | out_of_order (sequence : Nat)
  | duplicate (sequence : Nat)
  | excessive_delay (sequence : Nat) (observed_delay : Nat)
  | malformed (raw : String)
deriving DecidableEq, Repr

/-- Modelled from the spec: per-source ConnectionState of the Detection
Engine (§3).  The server script owning this state is not under `src/`.
`seen_sequences` is modelled as an unbounded list; the spec's sliding-window
eviction is a memory bound orthogonal to the claims proved here. -/
structure ConnectionState where
  expected_sequence : Nat
  seen_sequences : List Nat
deriving DecidableEq, Repr

/-- Modelled from the spec: DetectionConfig (§3) — `enabled` gates alert
output, `max_delay` is the timing-anomaly threshold (seconds, modelled as
`Nat`). -/
structure DetectionConfig where
  enabled : Bool
  max_delay : Nat
deriving DecidableEq, Repr

/-- Modelled from the spec: initial per-source ConnectionState; the source
numbers its session from sequence 1 (README traffic diagram `SEQ=1`, and the
§8 replay scenario expects no alert on the first sequence 1). -/
def initState : ConnectionState := ⟨1, []⟩

/-- Modelled from the spec: §4.4 classification of one successfully decoded
message received at time `t` — duplicate when the sequence was already seen,
out-of-order when present, new and not the expected sequence, and an
independent excessive-delay check; state tracking advances
`expected_sequence` to `max(expected_sequence, sequence + 1)` and records the
sequence, and happens whether or not detection is enabled (§3, §4.4). -/
def classify (cfg : DetectionConfig) (st : ConnectionState) (m : Message)
    (t : Nat) : ConnectionState × List Alert :=
  let ordering : List Alert :=
    if m.sequence ∈ st.seen_sequences then [Alert.duplicate m.sequence]
    else if m.sequence ≠ st.expected_sequence then [Alert.out_of_order m.sequence]
    else []
  let timing : List Alert :=
    if cfg.max_delay < t - m.timestamp then
      [Alert.excessive_delay m.sequence (t - m.timestamp)]
    else []
  let st2 : ConnectionState :=
    if m.sequence ∈ st.seen_sequences then st
    else ⟨max st.expected_sequence (m.sequence + 1), m.sequence :: st.seen_sequences⟩
  (st2, if cfg.enabled then ordering ++ timing else [])

/-- Modelled from the spec: the Detection Engine step on the destination's
received input — a decode failure raises `malformed` (reported in the alert
output only when detection is enabled, §4.4) and leaves the connection state
untouched; a decoded message goes through `classify`. -/
def processRaw (cfg : DetectionConfig) (st : ConnectionState)
    (input : Except MalformedError Message) (t : Nat) :
    ConnectionState × List Alert :=
  match input with
  | Except.error e => (st, if cfg.enabled then [Alert.malformed e.raw] else [])
  | Except.ok m => classify cfg st m t

/-- Modelled from the spec: fold of `processRaw` over a received input
sequence, returning the per-message alert lists in arrival order. -/
def runDetection (cfg : DetectionConfig) :
    ConnectionState → List (Except MalformedError Message × Nat) → List (List Alert)
  | _, [] => []
  | st, (i, t) :: rest =>
    let step := processRaw cfg st i t
    step.2 :: runDetection cfg step.1 rest

/-! ## Dashboard configuration panel (src/dashboard/components/config-panel.tsx) -/

/-- Boolean membership of a string in a list of strings (the shape shared by
the panel's option lists). -/
def memStr (x : String) : List String → Bool
  | [] => false
  | y :: ys => if x = y then true else memStr x ys

/-- The attack-mode options offered by the dashboard's MITM Proxy Config
select (config-panel.tsx lines 160-163, the SelectItem values). -/
def ConfigPanel.modeOptions : List String :=
  ["transparent", "modify", "replay", "delay"]

/-- The delay-bound inputs the panel shows for a given proxy mode: the single
delay_duration input, rendered only when the mode is "delay"
(config-panel.tsx lines 169-184); no delay_min/delay_max inputs exist. -/
def ConfigPanel.delayBoundFields (mode : String) : List String :=
  if mode = "delay" then ["delay_duration"] else []

/-- The numeric input ids of the config panel (config-panel.tsx lines 55,
110, 175). -/
def ConfigPanel.numericFieldIds : List String :=
  ["message_interval", "max_delay", "delay_duration"]

/-- The configuration keys the panel edits (config-panel.tsx / the Config
fields the dashboard reads). -/
inductive ConfigKey
  | message_interval
  | payload
  | detection_enabled
  | max_delay
  | use_proxy
  | proxy_mode
  | delay_duration
deriving DecidableEq, Repr

/-- A configuration value: numeric, text, or boolean. -/
inductive ConfigVal
  | num (q : ℚ)
  | str (s : String)
  | flag (b : Bool)
deriving DecidableEq, Repr

/-- A configuration object as a total key-value mapping. -/
def ConfigMap := ConfigKey → ConfigVal

/-- updateConfig / handleConfigChange (config-panel.tsx lines 33-35,
`setLocalConfig((prev) => ({ ...prev, [key]: value }))`): spread of the
previous object with one computed key replaced. -/
def updateConfig (c : ConfigMap) (k : ConfigKey) (v : ConfigVal) : ConfigMap :=
  fun j => if j = k then v else c j

/-- A sample configuration mapping used as a concrete witness input. -/
def sampleConfig : ConfigMap := fun _ => ConfigVal.str ""

/-- Sign handling of JavaScript Number.parseFloat: one optional leading sign
character. -/
def parseSign : List Char → Bool × List Char
  | '-' :: cs => (true, cs)
  | '+' :: cs => (false, cs)
  | cs => (false, cs)

/-- Longest leading digit run, returned with the unconsumed remainder. -/
def takeDigits : List Char → List Nat × List Char
  | [] => ([], [])
  | c :: cs =>
    match digitVal? c with
    | some d =>
      let r := takeDigits cs
      (d :: r.1, r.2)
    | none => ([], c :: cs)

/-- Model of JavaScript Number.parseFloat over decimal notation (optional
sign, integer digits, optional fractional digits; trailing input ignored),
`none` standing for NaN when no digits can be read. -/
def parseFloatQ (s : String) : Option ℚ :=
  let sg := parseSign s.data
  let ip := takeDigits sg.2
  match ip.2 with
  | '.' :: cs3 =>
    let fp := takeDigits cs3
    if ip.1 = [] ∧ fp.1 = [] then none
    else
      let mag : ℚ :=
        (digitsVal ip.1 : ℚ) + (digitsVal fp.1 : ℚ) / (10 : ℚ) ^ fp.1.length
      some (if sg.1 then -mag else mag)
  | _ =>
    if ip.1 = [] then none
    else some (if sg.1 then -(digitsVal ip.1 : ℚ) else (digitsVal ip.1 : ℚ))

/-- The value a numeric config input stores on change
(config-panel.tsx lines 60, 115, 180:
`Number.parseFloat(e.target.value) || 0` — the JavaScript or-else collapses
NaN and zero to 0 and keeps every other parsed value, negative ones
included). -/
def storedNumeric (s : String) : ℚ :=
  match parseFloatQ s with
  | none => 0
  | some x => if x = 0 then 0 else x

/-! ## Dashboard status and monitoring (src/dashboard/app/page.tsx,
src/dashboard/components/monitoring-panel.tsx) -/

/-- One entry of the status result's per-role array as the monitoring panel
reads it (`container.name`, `container.state`, `container.status`). -/
structure ContainerStatus where
  name : String
  state : String
  status : String
deriving DecidableEq, Repr

/-- The status query result as the Dashboard reads it (page.tsx lines
147-148: `status?.running`, `status?.containers`). -/
structure SimulationStatus where
  running : Bool
  containers : List ContainerStatus
deriving DecidableEq, Repr

/-- The keys the Dashboard reads from a status query result (page.tsx lines
147-148). -/
def statusResultKeys : List String := ["running", "containers"]

/-- The fields the monitoring panel reads from one per-role entry. -/
def containerEntryKeys : List String := ["name", "state", "status"]

/-- The role states the monitoring panel's switches recognize
(monitoring-panel.tsx lines 247-261). -/
def stateVocabulary : List String := ["running", "stopped", "error"]

/-- getStateColor (monitoring-panel.tsx lines 255-261): the switch over the
role state; a state outside the vocabulary hits no case (modelled `none`). -/
def getStateColor (state : String) : Option String :=
  if state = "running" then some "text-emerald-400"
  else if state = "stopped" then some "text-muted-foreground"
  else if state = "error" then some "text-red-400"
  else none

/-- The Dashboard's read of the running flag
(page.tsx line 147: `status?.running ?? false`). -/
def readRunning (s : Option SimulationStatus) : Bool :=
  (s.map SimulationStatus.running).getD false

/-- The Dashboard's read of the per-role array
(page.tsx line 148: `status?.containers ?? []`). -/
def readContainers (s : Option SimulationStatus) : List ContainerStatus :=
  (s.map SimulationStatus.containers).getD []

/-- Character-list rendering of `.toLowerCase()`. -/
def lowerName (s : String) : String := String.mk (s.data.map Char.toLower)

/-- Pattern `p` is a leading block of the text. -/
def leadMatch : List Char → List Char → Bool
  | [], _ => true
  | _ :: _, [] => false
  | a :: ps, b :: ts => if a = b then leadMatch ps ts else false

/-- Pattern `p` occurs contiguously somewhere in the text
(JavaScript `String.includes`). -/
def subMatch (p : List Char) : List Char → Bool
  | [] => p.isEmpty
  | c :: ts => leadMatch p (c :: ts) || subMatch p ts

/-- The monitoring panel's container predicate for one role
(monitoring-panel.tsx lines 318-320:
`c.name.toLowerCase().includes(keyword)` over the role's keywords). -/
def nameMatches (kws : List String) (c : ContainerStatus) : Bool :=
  kws.any (fun k => subMatch k.data (lowerName c.name).data)

/-- `containers.find(...)`: the first container satisfying the role
predicate. -/
def findContainer (kws : List String) : List ContainerStatus → Option ContainerStatus
  | [] => none
  | c :: cs => if nameMatches kws c then some c else findContainer kws cs

/-- Keywords of the proxy role terminal (monitoring-panel.tsx line 318). -/
def proxyKeywords : List String := ["proxy", "mitm"]

/-- Keywords of the server role terminal (monitoring-panel.tsx line 319). -/
def serverKeywords : List String := ["server"]

/-- Keywords of the client role terminal (monitoring-panel.tsx line 320). -/
def clientKeywords : List String := ["client"]

/-- Container resolved for the proxy terminal. -/
def proxyContainer (cs : List ContainerStatus) : Option ContainerStatus :=
  findContainer proxyKeywords cs

/-- Container resolved for the server terminal. -/
def serverContainer (cs : List ContainerStatus) : Option ContainerStatus :=
  findContainer serverKeywords cs

/-- Container resolved for the client terminal. -/
def clientContainer (cs : List ContainerStatus) : Option ContainerStatus :=
  findContainer clientKeywords cs

/-- What a role terminal renders (monitoring-panel.tsx lines 286-304 and 82):
the fallback text when no container resolved, otherwise the container's name
and status. -/
inductive TerminalBody
  | fallback (text : String)
  | info (name status : String)
deriving DecidableEq, Repr

/-- Terminal body for a resolved (or unresolved) container. -/
def terminalBody : Option ContainerStatus → TerminalBody
  | none => TerminalBody.fallback "Container not found"
  | some c => TerminalBody.info c.name c.status

/-! ## Codec helper lemmas -/

theorem digitVal?_digitChar {d : Nat} (h : d < 10) :
    digitVal? (digitChar d) = some d := by
  interval_cases d <;> decide

theorem digitChar_ne_bar (d : Nat) : digitChar d ≠ '|' := by
  unfold digitChar
  split_ifs <;> decide

theorem natDigitsAux_lt (f : Nat) :
    ∀ n, ∀ d ∈ natDigitsAux f n, d < 10 := by
  induction f with
  | zero => intro n d hd; simp [natDigitsAux] at hd
  | succ f ih =>
    intro n d hd
    cases n with
    | zero => simp [natDigitsAux] at hd
    | succ m =>
      simp only [natDigitsAux, List.mem_cons] at hd
      rcases hd with h | h
      · omega
      · exact ih _ d h

theorem natDigitsAux_ofLE (f : Nat) :
    ∀ n, n ≤ f → ofLE (natDigitsAux f n) = n := by
  induction f with
  | zero => intro n hn; interval_cases n; simp [natDigitsAux, ofLE]
  | succ f ih =>
    intro n hn
    cases n with
    | zero => simp [natDigitsAux, ofLE]
    | succ m =>
      have hdiv : (m + 1) / 10 ≤ f := by
        have := Nat.div_lt_self (Nat.succ_pos m) (by norm_num : 1 < 10)
        omega
      simp only [natDigitsAux, ofLE, ih _ hdiv]
      omega

theorem foldl_reverse_ofLE (ds : List Nat) :
    ∀ a : Nat, ds.reverse.foldl (fun x d => 10 * x + d) a =
      a * 10 ^ ds.length + ofLE ds := by
  induction ds with
  | nil => intro a; simp [ofLE]
  | cons d ds ih =>
    intro a
    simp only [List.reverse_cons, List.foldl_append, List.foldl_cons,
      List.foldl_nil, ih, ofLE, List.length_cons]
    rw [pow_succ]
    ring

theorem digitsOf?_map (ds : List Nat) (h : ∀ d ∈ ds, d < 10) :
    digitsOf? (ds.map digitChar) = some ds := by
  induction ds with
  | nil => rfl
  | cons d ds ih =>
    have hd : d < 10 := h d (List.mem_cons_self d ds)
    have hds : ∀ x ∈ ds, x < 10 := fun x hx => h x (List.mem_cons_of_mem d hx)
    simp only [List.map_cons, digitsOf?, digitVal?_digitChar hd, ih hds]

theorem charsToNat?_natChars (n : Nat) : charsToNat? (natChars n) = some n := by
  by_cases hn : n = 0
  · subst hn; decide
  · have hD : ∀ d ∈ (natDigitsAux n n).reverse, d < 10 := by
      intro d hd
      exact natDigitsAux_lt n n d (List.mem_reverse.mp hd)
    have hmap : ((natDigitsAux n n).map digitChar).reverse =
        ((natDigitsAux n n).reverse).map digitChar := by
      simp [List.map_reverse]
    have hne : natDigitsAux n n ≠ [] := by
      cases n with
      | zero => exact absurd rfl hn
      | succ m => simp [natDigitsAux]
    unfold natChars
    rw [if_neg hn, hmap]
    unfold charsToNat?
    rw [digitsOf?_map _ hD]
    have hner : (natDigitsAux n n).reverse ≠ [] := by
      simpa using hne
    cases hrev : (natDigitsAux n n).reverse with
    | nil => exact absurd hrev hner
    | cons d ds =>
      simp only []
      congr 1
      have hval : digitsVal (natDigitsAux n n).reverse = n := by
        unfold digitsVal
        rw [foldl_reverse_ofLE]
        simpa using natDigitsAux_ofLE n n le_rfl
      rw [← hrev]
      exact hval

theorem splitOnChar_ne_nil (sep : Char) (cs : List Char) :
    splitOnChar sep cs ≠ [] := by
  cases cs with
  | nil => simp [splitOnChar]
  | cons c rest =>
    unfold splitOnChar
    cases h : splitOnChar sep rest with
    | nil => simp
    | cons g gs =>
      by_cases hc : c = sep <;> simp [hc]

theorem splitOnChar_no_sep (sep : Char) (cs : List Char)
    (h : ∀ c ∈ cs, c ≠ sep) : splitOnChar sep cs = [cs] := by
  induction cs with
  | nil => rfl
  | cons c rest ih =>
    have hc : c ≠ sep := h c (List.mem_cons_self c rest)
    have hrest : ∀ x ∈ rest, x ≠ sep := fun x hx => h x (List.mem_cons_of_mem c hx)
    unfold splitOnChar
    rw [ih hrest]
    simp [hc]

theorem splitOnChar_append (sep : Char) (x r : List Char)
    (h : ∀ c ∈ x, c ≠ sep) :
    splitOnChar sep (x ++ sep :: r) = x :: splitOnChar sep r := by
  induction x with
  | nil =>
    simp only [List.nil_append]
    rw [splitOnChar]
    cases hr : splitOnChar sep r with
    | nil => exact absurd hr (splitOnChar_ne_nil sep r)
    | cons g gs => simp
  | cons c x ih =>
    have hc : c ≠ sep := h c (List.mem_cons_self c x)
    have hx : ∀ y ∈ x, y ≠ sep := fun y hy => h y (List.mem_cons_of_mem c hy)
    simp only [List.cons_append]
    rw [splitOnChar, ih hx]
    simp [hc]

theorem dropLabel?_append (L r : List Char) : dropLabel? L (L ++ r) = some r := by
  induction L with
  | nil => rfl
  | cons l ls ih => simp [dropLabel?, ih]

theorem natChars_ne_bar (n : Nat) : ∀ c ∈ natChars n, c ≠ '|' := by
  intro c hc
  unfold natChars at hc
  by_cases hn : n = 0
  · rw [if_pos hn] at hc
    simp only [List.mem_singleton] at hc
    subst hc; decide
  · rw [if_neg hn] at hc
    rw [List.mem_reverse, List.mem_map] at hc
    obtain ⟨d, _, rfl⟩ := hc
    exact digitChar_ne_bar d

/-- C4: for every valid message m (well-formed sequence, timestamp, payload —
validity modelled as the payload containing no field separator), decoding the
encoding of m with the Wire Codec yields m back: decode(encode(m)) = m. -/
theorem C4_decode_encode_roundtrip (m : Message)
    (h : ∀ c ∈ m.payload.data, c ≠ '|') :
    decode (encode m) = Except.ok m := by
  have hseq : ∀ c ∈ seqLabel, c ≠ '|' := by decide
  have hts : ∀ c ∈ tsLabel, c ≠ '|' := by decide
  have hdata : ∀ c ∈ dataLabel, c ≠ '|' := by decide
  have hf1 : ∀ c ∈ seqLabel ++ natChars m.sequence, c ≠ '|' := by
    intro c hc
    rcases List.mem_append.mp hc with h1 | h1
    · exact hseq c h1
    · exact natChars_ne_bar _ c h1
  have hf2 : ∀ c ∈ tsLabel ++ natChars m.timestamp, c ≠ '|' := by
    intro c hc
    rcases List.mem_append.mp hc with h1 | h1
    · exact hts c h1
    · exact natChars_ne_bar _ c h1
  have hf3 : ∀ c ∈ dataLabel ++ m.payload.data, c ≠ '|' := by
    intro c hc
    rcases List.mem_append.mp hc with h1 | h1
    · exact hdata c h1
    · exact h c h1
  have hdataeq : (encode m).data =
      (seqLabel ++ natChars m.sequence) ++ '|' ::
        ((tsLabel ++ natChars m.timestamp) ++ '|' ::
          (dataLabel ++ m.payload.data)) := by
    simp [encode, List.append_assoc]
  have hsplit : splitOnChar '|' (encode m).data =
      [seqLabel ++ natChars m.sequence, tsLabel ++ natChars m.timestamp,
        dataLabel ++ m.payload.data] := by
    rw [hdataeq, splitOnChar_append _ _ _ hf1, splitOnChar_append _ _ _ hf2,
      splitOnChar_no_sep _ _ hf3]
  unfold decode
  rw [hsplit]
  simp only [dropLabel?_append, charsToNat?_natChars]

/-- Witness for C4 at the concrete message `SEQ=7|TS=42|DATA=HELLO`. -/
theorem C4_roundtrip_witness :
    decode (encode ⟨7, 42, "HELLO"⟩) = Except.ok ⟨7, 42, "HELLO"⟩ :=
  C4_decode_encode_roundtrip ⟨7, 42, "HELLO"⟩ (by decide)

/-- A successful decode certifies that all three labeled fields are present
and that the sequence and timestamp fields are numeric. -/
theorem decode_error_of_bad_fields (s : String)
    (hbad : hasAllFields s = false ∨ numericFields s = false) :
    decode s = Except.error ⟨s⟩ := by
  unfold decode
  split
  · rename_i f1 f2 f3 heq
    split
    · rename_i sd td pd h1 h2 h3
      split
      · rename_i sq ts hsq hts
        exfalso
        have hA : hasAllFields s = true := by
          unfold hasAllFields
          rw [heq]
          simp [h1, h2, h3]
        have hN : numericFields s = true := by
          unfold numericFields
          rw [heq]
          simp [h1, h2, hsq, hts]
        rcases hbad with hb | hb
        · rw [hA] at hb; exact Bool.noConfusion hb
        · rw [hN] at hb; exact Bool.noConfusion hb
      · rfl
    · rfl
  · rfl

/-- C2: for every message classified by the Detection Engine as out of order
(not a duplicate and sequence different from the expected sequence), the
post-classification expected_sequence equals
max(expected_sequence, sequence + 1); and across every Detection Engine step
the expected_sequence never decreases, so it never stays behind a gap caused
by a dropped message. -/
theorem C2_expected_sequence_advances :
    (∀ (cfg : DetectionConfig) (st : ConnectionState) (m : Message) (t : Nat),
      m.sequence ∉ st.seen_sequences →
      m.sequence ≠ st.expected_sequence →
      (classify cfg st m t).1.expected_sequence =
        max st.expected_sequence (m.sequence + 1)) ∧
    (∀ (cfg : DetectionConfig) (st : ConnectionState)
      (input : Except MalformedError Message) (t : Nat),
      st.expected_sequence ≤ (processRaw cfg st input t).1.expected_sequence) := by
  constructor
  · intro cfg st m t hseen hne
    simp [classify, hseen]
  · intro cfg st input t
    cases input with
    | error e => simp [processRaw]
    | ok m =>
      simp only [processRaw, classify]
      by_cases hs : m.sequence ∈ st.seen_sequences
      · simp [hs]
      · simp [hs]

/-- Witness for C2: a fresh out-of-order sequence 3 against expected 1
advances expected_sequence to max 1 4 = 4, and the step is monotone. -/
theorem C2_witness :
    (classify ⟨true, 5⟩ initState ⟨3, 0, "x"⟩ 0).1.expected_sequence =
      max initState.expected_sequence 4 ∧
    initState.expected_sequence ≤
      (processRaw ⟨true, 5⟩ initState (Except.ok ⟨3, 0, "x"⟩) 0).1.expected_sequence :=
  ⟨C2_expected_sequence_advances.1 ⟨true, 5⟩ initState ⟨3, 0, "x"⟩ 0
      (by decide) (by decide),
    C2_expected_sequence_advances.2 ⟨true, 5⟩ initState (Except.ok ⟨3, 0, "x"⟩) 0⟩

/-- C3: with detection enabled, a decoded message is classified as a
duplicate exactly when its sequence is already in seen_sequences; and feeding
sequences 1, 2, 1 directly to the Detection Engine produces no alert, no
alert, then exactly one duplicate alert. -/
theorem C3_duplicate_iff_seen :
    (∀ (cfg : DetectionConfig) (st : ConnectionState) (m : Message) (t : Nat),
      cfg.enabled = true →
      (Alert.duplicate m.sequence ∈ (processRaw cfg st (Except.ok m) t).2 ↔
        m.sequence ∈ st.seen_sequences)) ∧
    runDetection ⟨true, 10⟩ initState
        [(Except.ok ⟨1, 0, "x"⟩, 0), (Except.ok ⟨2, 0, "x"⟩, 0),
          (Except.ok ⟨1, 0, "x"⟩, 0)] =
      [[], [], [Alert.duplicate 1]] := by
  constructor
  · intro cfg st m t hen
    simp only [processRaw, classify, hen, if_true]
    by_cases hs : m.sequence ∈ st.seen_sequences
    · simp [hs]
    · simp only [hs, iff_false, if_false]
      split_ifs <;> simp [hs]
  · decide

/-- Witness for C3: sequence 1 re-received while seen_sequences is [1]. -/
theorem C3_witness :
    Alert.duplicate 1 ∈
      (processRaw ⟨true, 10⟩ ⟨2, [1]⟩ (Except.ok ⟨1, 0, "x"⟩) 0).2 :=
  (C3_duplicate_iff_seen.1 ⟨true, 10⟩ ⟨2, [1]⟩ ⟨1, 0, "x"⟩ 0 rfl).mpr (by decide)

/-- C5: every input missing one of the three labeled fields or with a
non-numeric sequence or timestamp decodes to MalformedError rather than a
message, and on that input the enabled Detection Engine emits exactly one
malformed alert and leaves expected_sequence unchanged. -/
theorem C5_malformed_input_rejected (s : String)
    (hbad : hasAllFields s = false ∨ numericFields s = false) :
    decode s = Except.error ⟨s⟩ ∧
    ∀ (cfg : DetectionConfig) (st : ConnectionState) (t : Nat),
      cfg.enabled = true →
      (processRaw cfg st (decode s) t).2 = [Alert.malformed s] ∧
      (processRaw cfg st (decode s) t).1.expected_sequence =
        st.expected_sequence := by
  have hdec : decode s = Except.error ⟨s⟩ := decode_error_of_bad_fields s hbad
  refine ⟨hdec, ?_⟩
  intro cfg st t hen
  rw [hdec]
  simp [processRaw, hen]

/-- Witness for C5: bytes missing the sequence field (the §8 malformed
scenario). -/
theorem C5_witness :
    decode "TS=0|DATA=x" = Except.error ⟨"TS=0|DATA=x"⟩ ∧
    (processRaw ⟨true, 5⟩ initState (decode "TS=0|DATA=x") 0).2 =
      [Alert.malformed "TS=0|DATA=x"] ∧
    (processRaw ⟨true, 5⟩ initState (decode "TS=0|DATA=x") 0).1.expected_sequence =
      initState.expected_sequence :=
  have h := C5_malformed_input_rejected "TS=0|DATA=x" (Or.inl (by decide))
  ⟨h.1, (h.2 ⟨true, 5⟩ initState 0 rfl).1, (h.2 ⟨true, 5⟩ initState 0 rfl).2⟩

/-- C6: with detection disabled, every Detection Engine step emits no alert
of any kind (malformed included) while the connection state is updated
exactly as it would be with detection enabled. -/
theorem C6_disabled_tracks_silently :
    ∀ (cfg : DetectionConfig) (st : ConnectionState)
      (input : Except MalformedError Message) (t : Nat),
      cfg.enabled = false →
      (processRaw cfg st input t).2 = [] ∧
      (processRaw cfg st input t).1 =
        (processRaw ⟨true, cfg.max_delay⟩ st input t).1 := by
  intro cfg st input t hen
  cases input with
  | error e => simp [processRaw, hen]
  | ok m => simp [processRaw, classify, hen]

/-- Witness for C6: a disabled engine stays silent on an out-of-order message
yet tracks the same state as an enabled one. -/
theorem C6_witness :
    (processRaw ⟨false, 5⟩ initState (Except.ok ⟨9, 0, "x"⟩) 0).2 = [] ∧
    (processRaw ⟨false, 5⟩ initState (Except.ok ⟨9, 0, "x"⟩) 0).1 =
      (processRaw ⟨true, 5⟩ initState (Except.ok ⟨9, 0, "x"⟩) 0).1 :=
  C6_disabled_tracks_silently ⟨false, 5⟩ initState (Except.ok ⟨9, 0, "x"⟩) 0 rfl

/-! ## Dashboard claim theorems -/

/-- C1 evaluation: the configuration surface the dashboard presents offers
exactly the superseded modify/replay/delay vocabulary next to transparent,
offers none of random_delay/drop/reorder, and under its delay mode presents
the single delay_duration bound with no delay_min/delay_max inputs — the
panel contradicts the documented PROXY_MODE contract of the README. -/
theorem C1_panel_offers_superseded_vocabulary :
    memStr "modify" ConfigPanel.modeOptions = true ∧
    memStr "replay" ConfigPanel.modeOptions = true ∧
    memStr "delay" ConfigPanel.modeOptions = true ∧
    memStr "random_delay" ConfigPanel.modeOptions = false ∧
    memStr "drop" ConfigPanel.modeOptions = false ∧
    memStr "reorder" ConfigPanel.modeOptions = false ∧
    ConfigPanel.delayBoundFields "delay" = ["delay_duration"] ∧
    memStr "delay_min" ConfigPanel.numericFieldIds = false ∧
    memStr "delay_max" ConfigPanel.numericFieldIds = false := by
  decide

/-- C7 counterexample: the per-role array of the status result the Dashboard
consumes is not named `roles` — the key it reads is `containers`. -/
theorem C7_roles_key_absent :
    memStr "roles" statusResultKeys = false ∧
    memStr "containers" statusResultKeys = true := by
  decide

/-- C7 as amended: a status result has the shape
`{running: bool, containers: [{name, state, status}]}` with the recognized
states exactly running/stopped/error, and the Dashboard's reads of the
running flag and of the per-role array return exactly what the result
carries. -/
theorem C7_status_shape_amended :
    (∀ s : SimulationStatus,
      readRunning (some s) = s.running ∧ readContainers (some s) = s.containers) ∧
    (∀ st : String, (getStateColor st).isSome = memStr st stateVocabulary) ∧
    statusResultKeys = ["running", "containers"] ∧
    containerEntryKeys = ["name", "state", "status"] := by
  refine ⟨fun s => ⟨rfl, rfl⟩, ?_, rfl, rfl⟩
  intro st
  simp only [getStateColor, stateVocabulary, memStr]
  split_ifs <;> rfl

/-- C8: the config-update step (updateConfig / handleConfigChange) maps the
updated key to the new value and leaves every other key's value unchanged. -/
theorem C8_update_frame :
    ∀ (c : ConfigMap) (k : ConfigKey) (v : ConfigVal),
      updateConfig c k v k = v ∧
      ∀ j : ConfigKey, j ≠ k → updateConfig c k v j = c j := by
  intro c k v
  refine ⟨by simp [updateConfig], ?_⟩
  intro j hj
  simp [updateConfig, hj]

/-- Witness for C8: updating payload keeps max_delay and sets payload. -/
theorem C8_witness :
    updateConfig sampleConfig ConfigKey.payload (ConfigVal.str "x")
        ConfigKey.max_delay = sampleConfig ConfigKey.max_delay ∧
    updateConfig sampleConfig ConfigKey.payload (ConfigVal.str "x")
        ConfigKey.payload = ConfigVal.str "x" :=
  have h := C8_update_frame sampleConfig ConfigKey.payload (ConfigVal.str "x")
  ⟨h.2 ConfigKey.max_delay (by decide), h.1⟩

/-- C9: a numeric config input stores Number.parseFloat of the typed string
when that parse is a truthy number, and 0 when the parse is NaN or 0; the
stored value is always a number (never NaN), but a negative typed value such
as -5 is stored as -5 despite the field's declared minimum of 0. -/
theorem C9_numeric_input_storage :
    (∀ (s : String) (x : ℚ), parseFloatQ s = some x → x ≠ 0 →
      storedNumeric s = x) ∧
    (∀ s : String, parseFloatQ s = none → storedNumeric s = 0) ∧
    (∀ s : String, parseFloatQ s = some 0 → storedNumeric s = 0) ∧
    parseFloatQ "-5" = some (-5) ∧
    storedNumeric "-5" = -5 ∧ (-5 : ℚ) < 0 := by
  refine ⟨?_, ?_, ?_, by decide, by decide, by norm_num⟩
  · intro s x h hx
    simp [storedNumeric, h, hx]
  · intro s h
    simp [storedNumeric, h]
  · intro s h
    simp [storedNumeric, h]

/-- Witness for C9: a truthy parse is stored as parsed, a NaN parse as 0. -/
theorem C9_witness :
    storedNumeric "7" = 7 ∧ storedNumeric "" = 0 :=
  ⟨C9_numeric_input_storage.1 "7" 7 (by decide) (by norm_num),
    C9_numeric_input_storage.2.1 "" (by decide)⟩

/-- The role resolver returns the first matching container. -/
theorem findContainer_first (kws : List String) :
    ∀ (l1 : List ContainerStatus) (c : ContainerStatus) (l2 : List ContainerStatus),
      (∀ d ∈ l1, nameMatches kws d = false) → nameMatches kws c = true →
      findContainer kws (l1 ++ c :: l2) = some c := by
  intro l1
  induction l1 with
  | nil =>
    intro c l2 _ hc
    simp [findContainer, hc]
  | cons d l1 ih =>
    intro c l2 hall hc
    have hd : nameMatches kws d = false := hall d (List.mem_cons_self d l1)
    have hrest : ∀ x ∈ l1, nameMatches kws x = false :=
      fun x hx => hall x (List.mem_cons_of_mem d hx)
    simp [findContainer, hd, ih c l2 hrest hc]

/-- The role resolver returns nothing when no container matches. -/
theorem findContainer_none (kws : List String) :
    ∀ cs : List ContainerStatus, (∀ d ∈ cs, nameMatches kws d = false) →
      findContainer kws cs = none := by
  intro cs
  induction cs with
  | nil => intro _; rfl
  | cons d cs ih =>
    intro hall
    have hd : nameMatches kws d = false := hall d (List.mem_cons_self d cs)
    have hrest : ∀ x ∈ cs, nameMatches kws x = false :=
      fun x hx => hall x (List.mem_cons_of_mem d hx)
    simp [findContainer, hd, ih hrest]

/-- C10: each role terminal resolves to the first container whose lowercased
name contains one of the role's keywords (proxy/mitm for the proxy, server
for the server, client for the client); when no container matches, the
terminal renders the fallback text "Container not found" instead of any
container's data. -/
theorem C10_role_resolution :
    (∀ (l1 l2 : List ContainerStatus) (c : ContainerStatus),
      (∀ d ∈ l1, nameMatches proxyKeywords d = false) →
      nameMatches proxyKeywords c = true →
      proxyContainer (l1 ++ c :: l2) = some c) ∧
    (∀ (l1 l2 : List ContainerStatus) (c : ContainerStatus),
      (∀ d ∈ l1, nameMatches serverKeywords d = false) →
      nameMatches serverKeywords c = true →
      serverContainer (l1 ++ c :: l2) = some c) ∧
    (∀ (l1 l2 : List ContainerStatus) (c : ContainerStatus),
      (∀ d ∈ l1, nameMatches clientKeywords d = false) →
      nameMatches clientKeywords c = true →
      clientContainer (l1 ++ c :: l2) = some c) ∧
    (∀ cs : List ContainerStatus,
      (∀ d ∈ cs, nameMatches proxyKeywords d = false) →
      terminalBody (proxyContainer cs) = TerminalBody.fallback "Container not found") ∧
    (∀ cs : List ContainerStatus,
      (∀ d ∈ cs, nameMatches serverKeywords d = false) →
      terminalBody (serverContainer cs) = TerminalBody.fallback "Container not found") ∧
    (∀ cs : List ContainerStatus,
      (∀ d ∈ cs, nameMatches clientKeywords d = false) →
      terminalBody (clientContainer cs) = TerminalBody.fallback "Container not found") := by
  refine ⟨?_, ?_, ?_, ?_, ?_, ?_⟩
  · intro l1 l2 c h1 h2
    exact findContainer_first proxyKeywords l1 c l2 h1 h2
  · intro l1 l2 c h1 h2
    exact findContainer_first serverKeywords l1 c l2 h1 h2
  · intro l1 l2 c h1 h2
    exact findContainer_first clientKeywords l1 c l2 h1 h2
  · intro cs h1
    unfold proxyContainer
    rw [findContainer_none proxyKeywords cs h1]
    rfl
  · intro cs h1
    unfold serverContainer
    rw [findContainer_none serverKeywords cs h1]
    rfl
  · intro cs h1
    unfold clientContainer
    rw [findContainer_none clientKeywords cs h1]
    rfl

/-- Witness for C10: the proxy terminal picks the first mitm-named container
past a non-matching one, and the server terminal shows the fallback text on a
container list with no server. -/
theorem C10_witness :
    proxyContainer
        [⟨"sim-client-1", "running", "Up"⟩, ⟨"MITM-Proxy", "running", "Up"⟩,
          ⟨"proxy-2", "running", "Up"⟩] =
      some ⟨"MITM-Proxy", "running", "Up"⟩ ∧
    terminalBody (serverContainer [⟨"sim-client-1", "running", "Up"⟩]) =
      TerminalBody.fallback "Container not found" :=
  ⟨C10_role_resolution.1 [⟨"sim-client-1", "running", "Up"⟩]
      [⟨"proxy-2", "running", "Up"⟩] ⟨"MITM-Proxy", "running", "Up"⟩
      (by decide) (by decide),
    C10_role_resolution.2.2.2.2.1 [⟨"sim-client-1", "running", "Up"⟩] (by decide)⟩
